import Mathlib

/-!
Verification of the grid-overlay image tool (`image-grid-tool`).

The tool is a browser UI component.  Its core logic — the seeded grid-cell
generator `gridCells`, the derived row count, the SVG serializer
`handleExportSVG`, the zip-bundle exporter `handleDownloadPackage`, the
image-upload handler and the mask-toggle logic — is embedded below as pure
Lean functions over exact rationals (JS numbers are modelled as `ℚ`; JS
division by zero, which cannot occur on the inputs considered here, is the
total `ℚ` division).  `Math.sin` is transcendental, so the generator is
parameterised by an arbitrary function `sin : ℚ → ℚ` standing for it; every
theorem below holds for all such functions, hence in particular for the real
sine.
-/

namespace BloominImg

/-- JavaScript `Math.round`: round half toward positive infinity. -/
def jsRound (q : ℚ) : ℤ := ⌊q + 1/2⌋

/-- The seeded pseudo-random draw of the generator
(`const x = Math.sin(seed + index) * 10000; return x - Math.floor(x)`):
the fractional part of `sin (seed + index) * 10000`. -/
def rng (sin : ℚ → ℚ) (seed : ℚ) (index : ℚ) : ℚ :=
  Int.fract (sin (seed + index) * 10000)

/-- One cell of the generated grid field (`interface GridCell`). -/
structure GridCell where
  id : String
  opacity : ℚ
  duration : ℚ
  delay : ℚ
  deriving Repr, DecidableEq

/-- The body of the generator loop for one index `i`: draw opacity (quantized
when `opacitySteps > 1`), duration and delay from three seeded draws at
offsets `i`, `i + 10000`, `i + 20000`.

Caveat: the quantization division is the total `ℚ` division, so at
`oMax = oMin` (where the source's `stepSize` is `0` and JS computes
`Math.round(0/0) = NaN`, making the opacity `NaN`) this idealized model
yields `oMin` instead.  `quantOpacityJS` below renders that branch with the
JS error value made explicit; `quantOpacityJS_eq_mkCell` proves the two
models agree everywhere off that error path. -/
def mkCell (sin : ℚ → ℚ) (seed : ℚ) (oMin oMax : ℚ) (opacitySteps : ℕ)
    (dMin dMax : ℚ) (i : ℕ) : GridCell :=
  let randomVal := rng sin seed i
  let opacity0 := oMin + randomVal * (oMax - oMin)
  let opacity :=
    if 1 < opacitySteps then
      let stepSize := (oMax - oMin) / ((opacitySteps : ℚ) - 1)
      let stepIndex := jsRound ((opacity0 - oMin) / stepSize)
      oMin + (stepIndex : ℚ) * stepSize
    else opacity0
  let r2 := rng sin seed ((i : ℚ) + 10000)
  let duration := r2 * (dMax - dMin) + dMin
  let r3 := rng sin seed ((i : ℚ) + 20000)
  let delay := r3 * 2
  { id := "cell-" ++ toString i, opacity := opacity,
    duration := duration, delay := delay }

/-- The grid-field generator, translated from the `gridCells` `useMemo` body:
the loop `for (let i = 0; i < rows * cols; i++) cells.push(...)` becomes a
map of the loop body `mkCell` over `List.range (rows * cols)`. -/
def gridCells (sin : ℚ → ℚ) (seed : ℚ) (rows cols : ℕ)
    (oMin oMax : ℚ) (opacitySteps : ℕ) (dMin dMax : ℚ) : List GridCell :=
  (List.range (rows * cols)).map (mkCell sin seed oMin oMax opacitySteps dMin dMax)

/-- The opacity computation of the generator loop with JS error values made
explicit (`none` models a non-finite result).  `v` is the cell's first draw
(`randomVal`).  When `1 < opacitySteps` and `stepSize = (oMax - oMin) /
(opacitySteps - 1)` is `0` (that is, `oMax = oMin`), the source computes
`(opacity - min) / 0` — `0/0 = NaN` since `opacity - min = randomVal * 0 = 0`
(and `±Infinity` for a nonzero numerator) — then `Math.round` of it, then
`min + that * 0`, which is `NaN` in every case; hence `none` exactly when
`stepSize = 0`.  Off that error path the value agrees with `mkCell`
(`quantOpacityJS_eq_mkCell`). -/
def quantOpacityJS (v oMin oMax : ℚ) (opacitySteps : ℕ) : Option ℚ :=
  let opacity0 := oMin + v * (oMax - oMin)
  if 1 < opacitySteps then
    let stepSize := (oMax - oMin) / ((opacitySteps : ℚ) - 1)
    if stepSize = 0 then none
    else some (oMin + (jsRound ((opacity0 - oMin) / stepSize) : ℚ) * stepSize)
  else some opacity0

/-- Derived row count (`const rows = Math.round(cols / aspectRatio) || 1`):
the `|| 1` replaces a falsy (zero) rounding result by `1`. -/
def derivedRows (cols : ℕ) (aspectRatio : ℚ) : ℤ :=
  let r := jsRound ((cols : ℚ) / aspectRatio)
  if r = 0 then 1 else r

/-- The full generator configuration: the state the `useMemo` depends on. -/
structure GridConfiguration where
  rows : ℕ
  cols : ℕ
  opacityMin : ℚ
  opacityMax : ℚ
  opacitySteps : ℕ
  durationMin : ℚ
  durationMax : ℚ
  seed : ℚ
  deriving Repr, DecidableEq

/-- The generator as a function of a whole configuration. -/
def generate (sin : ℚ → ℚ) (cfg : GridConfiguration) : List GridCell :=
  gridCells sin cfg.seed cfg.rows cfg.cols cfg.opacityMin cfg.opacityMax
    cfg.opacitySteps cfg.durationMin cfg.durationMax

/-- A `rect` element of the exported SVG body. -/
structure SvgRect where
  x : ℚ
  y : ℚ
  width : ℚ
  height : ℚ
  fill : String
  fillOpacity : ℚ
  deriving Repr, DecidableEq

/-- A `circle` element (dot marker) of the exported SVG body. -/
structure SvgCircle where
  cx : ℚ
  cy : ℚ
  r : ℚ
  fill : String
  deriving Repr, DecidableEq

/-- JS `toFixed(3)` modelled as rounding to three decimal places. -/
def toFixed3 (q : ℚ) : ℚ := (jsRound (q * 1000) : ℚ) / 1000

/-- The per-cell body of `handleExportSVG` (`gridCells.map((cell, i) => ...)`):
a masked index emits the empty string — modelled as `none` — and an unmasked
index emits one rect at row `i / cols`, column `i % cols`. -/
def svgRectEntries (cells : List GridCell) (mask : Finset ℕ) (cols rows : ℕ)
    (gridColor : String) : List (Option SvgRect) :=
  let cellWidth : ℚ := 100 / cols
  let cellHeight : ℚ := 100 / rows
  cells.enum.map fun p =>
    if p.1 ∈ mask then none
    else
      some { x := ((p.1 % cols : ℕ) : ℚ) * cellWidth,
             y := ((p.1 / cols : ℕ) : ℚ) * cellHeight,
             width := cellWidth, height := cellHeight,
             fill := gridColor, fillOpacity := toFixed3 p.2.opacity }

/-- The dot-lattice loop of `handleExportSVG`: one circle per grid vertex,
`r` from `0` to `rows` and `c` from `0` to `cols` inclusive. -/
def svgDots (rows cols : ℕ) (dotsColor : String) : List SvgCircle :=
  let cellWidth : ℚ := 100 / cols
  let cellHeight : ℚ := 100 / rows
  (List.range (rows + 1)).flatMap fun (r : ℕ) =>
    (List.range (cols + 1)).map fun (c : ℕ) =>
      { cx := (c : ℚ) * cellWidth, cy := (r : ℚ) * cellHeight,
        r := 2, fill := dotsColor }

/-- The produced SVG document: its emitted rect entries (in cell order,
`none` for the empty string of a masked cell), its dot entries and the view
box taken from the image's pixel dimensions. -/
structure SvgExport where
  rectEntries : List (Option SvgRect)
  dotEntries : List SvgCircle
  viewBoxWidth : ℚ
  viewBoxHeight : ℚ
  deriving Repr, DecidableEq

/-- `handleExportSVG`: returns immediately when no image is loaded, else
builds the rect body and, when `showDots`, appends the dot lattice. -/
def handleExportSVG (image : Option String) (cells : List GridCell)
    (mask : Finset ℕ) (cols rows : ℕ) (showDots : Bool)
    (gridColor dotsColor : String) (width height : ℚ) : Option SvgExport :=
  match image with
  | none => none
  | some _ =>
    some { rectEntries := svgRectEntries cells mask cols rows gridColor,
           dotEntries := if showDots then svgDots rows cols dotsColor else [],
           viewBoxWidth := width, viewBoxHeight := height }

/-- An entry of the exported zip archive: a text file or raw bytes. -/
inductive ZipContent where
  | text (s : String)
  | blob (bytes : List ℕ)
  deriving Repr, DecidableEq

/-- `handleDownloadPackage`: returns immediately when no image is loaded;
otherwise adds the component source and the instruction document, then tries
to fetch the image bytes — on failure a warning alert is raised (the `Bool`
component of the result) and the archive is still generated without the image
entry.  The two generated template strings (`generateComponentCode()` and the
prompt document) are string-valued and taken as parameters; the archive is the
list of `(name, content)` entries in insertion order, and `fetchResult` models
the outcome of `fetch(image)` / `response.blob()`. -/
def handleDownloadPackage (image : Option String)
    (componentCode promptContent : String)
    (fetchResult : Except String (List ℕ)) :
    Option (List (String × ZipContent) × Bool) :=
  match image with
  | none => none
  | some _ =>
    let base := [("GridOverlay.tsx", ZipContent.text componentCode),
                 ("LLM_PROMPT.md", ZipContent.text promptContent)]
    match fetchResult with
    | Except.ok bytes =>
        some (base ++ [("background.png", ZipContent.blob bytes)], false)
    | Except.error _ => some (base, true)

/-- The UI state the upload and mask handlers act on. -/
structure ToolState where
  image : Option String
  width : ℕ
  height : ℕ
  maskedIndices : Finset ℕ
  isMaskingMode : Bool
  deriving DecidableEq

/-- `handleImageUpload`: when a file is selected an object URL is created, the
asynchronous `img.onload` callback (modelled by `imageOnload`) is registered,
and the mask is cleared synchronously (`setMaskedIndices(new Set())`). -/
def handleImageUpload (file : Option String) (s : ToolState) : ToolState :=
  match file with
  | none => s
  | some _ => { s with maskedIndices := (∅ : Finset ℕ) }

/-- The `img.onload` callback of `handleImageUpload`: records the decoded
pixel dimensions and the new image URL. -/
def imageOnload (url : String) (w h : ℕ) (s : ToolState) : ToolState :=
  { s with width := w, height := h, image := some url }

/-- `toggleMask`: flip membership of `index` in the mask set. -/
def toggleMask (index : ℕ) (prev : Finset ℕ) : Finset ℕ :=
  if index ∈ prev then prev.erase index else insert index prev

/-- The cell `onClick` handler: `isMaskingMode && toggleMask(i)` — the toggle
runs only while masking mode is enabled. -/
def cellClick (isMaskingMode : Bool) (i : ℕ) (mask : Finset ℕ) : Finset ℕ :=
  if isMaskingMode then toggleMask i mask else mask

/-! ## Basic facts about the pseudo-random draws -/

theorem rng_nonneg (sin : ℚ → ℚ) (seed idx : ℚ) : 0 ≤ rng sin seed idx :=
  Int.fract_nonneg _

theorem rng_lt_one (sin : ℚ → ℚ) (seed idx : ℚ) : rng sin seed idx < 1 :=
  Int.fract_lt_one _

/-! ## Claim theorems -/

/-- C1: the grid field generator is pure and deterministic — for a fixed model
of `Math.sin`, identical configurations (rows, cols, opacity range,
quantization levels, duration range, seed) produce identical cell sequences,
with the same opacity, duration and delay at every index. -/
theorem generate_deterministic (sin : ℚ → ℚ) (c₁ c₂ : GridConfiguration)
    (h : c₁ = c₂) :
    generate sin c₁ = generate sin c₂ ∧
    ∀ i : ℕ, (generate sin c₁).get? i = (generate sin c₂).get? i := by
  subst h
  exact ⟨rfl, fun _ => rfl⟩

/-- Witness for C1 at a concrete configuration. -/
theorem generate_deterministic_witness :
    generate (fun _ => 0)
        { rows := 2, cols := 3, opacityMin := 1/5, opacityMax := 9/10,
          opacitySteps := 3, durationMin := 31/10, durationMax := 10, seed := 0 }
      = generate (fun _ => 0)
        { rows := 2, cols := 3, opacityMin := 1/5, opacityMax := 9/10,
          opacitySteps := 3, durationMin := 31/10, durationMax := 10, seed := 0 } :=
  (generate_deterministic (fun _ => 0) _ _ rfl).1

/-- C3: for positive `cols` and `aspectRatio` the derived row count equals
`max 1 (round (cols / aspectRatio))`; in particular `cols = 10` with
`aspectRatio = 800 / 600` gives `8` rows. -/
theorem derivedRows_eq_max (cols : ℕ) (ar : ℚ) (hc : 0 < cols) (ha : 0 < ar) :
    derivedRows cols ar = max 1 (jsRound ((cols : ℚ) / ar)) ∧
    derivedRows 10 (800 / 600) = 8 := by
  constructor
  · unfold derivedRows
    have hx : (0 : ℚ) ≤ (cols : ℚ) / ar := by positivity
    have h0 : (0 : ℤ) ≤ jsRound ((cols : ℚ) / ar) := by
      unfold jsRound
      exact Int.le_floor.mpr (by push_cast; linarith)
    by_cases h : jsRound ((cols : ℚ) / ar) = 0
    · simp [h]
    · have h1 : (1 : ℤ) ≤ jsRound ((cols : ℚ) / ar) := by omega
      simp [h, max_eq_right h1]
  · norm_num [derivedRows, jsRound]

/-- Witness for C3 at `cols = 10`, `aspectRatio = 800/600`. -/
theorem derivedRows_eq_max_witness :
    derivedRows 10 (800 / 600) = max 1 (jsRound ((10 : ℚ) / (800 / 600))) ∧
    derivedRows 10 (800 / 600) = 8 :=
  derivedRows_eq_max 10 (800 / 600) (by norm_num) (by norm_num)

/-- C6: when the image fetch succeeds the bundle archive holds exactly the
three fixed entry names, with no warning; when the fetch fails the warning
flag is raised and the archive is still produced with exactly the
component-source and instruction-document entries. -/
theorem handleDownloadPackage_entries (img code prompt : String)
    (bytes : List ℕ) (err : String) :
    (handleDownloadPackage (some img) code prompt (Except.ok bytes)).map
        (fun p => (p.1.map Prod.fst, p.2)) =
      some (["GridOverlay.tsx", "LLM_PROMPT.md", "background.png"], false) ∧
    (handleDownloadPackage (some img) code prompt (Except.error err)).map
        (fun p => (p.1.map Prod.fst, p.2)) =
      some (["GridOverlay.tsx", "LLM_PROMPT.md"], true) :=
  ⟨rfl, rfl⟩

/-- C7: after the upload handler runs for any selected file, the mask set is
empty, whatever it contained before. -/
theorem handleImageUpload_clears_mask (f : String) (s : ToolState) :
    (handleImageUpload (some f) s).maskedIndices = ∅ := rfl

/-- C9: a cell click with masking mode off leaves the mask set unchanged; a
click with masking mode on flips exactly index `i`: `i` is removed if present
and added if absent, and every other index keeps its membership. -/
theorem cellClick_toggle (i : ℕ) (m : Finset ℕ) :
    cellClick false i m = m ∧
    (i ∈ cellClick true i m ↔ i ∉ m) ∧
    ∀ j : ℕ, j ≠ i → (j ∈ cellClick true i m ↔ j ∈ m) := by
  refine ⟨rfl, ?_, ?_⟩
  · unfold cellClick toggleMask
    by_cases h : i ∈ m <;> simp [h]
  · intro j hj
    unfold cellClick toggleMask
    by_cases h : i ∈ m <;> simp [h, hj]

/-- Witness for C9 at `i = 1`, mask `{2}`. -/
theorem cellClick_toggle_witness :
    cellClick false 1 {2} = {2} ∧
    (1 ∈ cellClick true 1 ({2} : Finset ℕ) ↔ 1 ∉ ({2} : Finset ℕ)) ∧
    (2 ∈ cellClick true 1 ({2} : Finset ℕ) ↔ 2 ∈ ({2} : Finset ℕ)) :=
  ⟨(cellClick_toggle 1 {2}).1, (cellClick_toggle 1 {2}).2.1,
   (cellClick_toggle 1 {2}).2.2 2 (by decide)⟩

/-- C10: with no image loaded, both the SVG export and the bundle export
return immediately and produce no output. -/
theorem exports_noop_without_image (cells : List GridCell) (mask : Finset ℕ)
    (cols rows : ℕ) (showDots : Bool) (gc dc : String) (w h : ℚ)
    (code prompt : String) (fr : Except String (List ℕ)) :
    handleExportSVG none cells mask cols rows showDots gc dc w h = none ∧
    handleDownloadPackage none code prompt fr = none :=
  ⟨rfl, rfl⟩

/-- Rounding `v * (L - 1)` for `v ∈ [0, 1)` and `L ≥ 2` yields an integer
step index `k` with `0 ≤ k ≤ L - 1`. -/
theorem quantize_bounds (v : ℚ) (L : ℕ) (hv0 : 0 ≤ v) (hv1 : v < 1)
    (hL : 2 ≤ L) :
    ∃ k : ℕ, k ≤ L - 1 ∧ (jsRound (v * ((L : ℚ) - 1)) : ℚ) = (k : ℚ) := by
  have hL2 : (2 : ℚ) ≤ (L : ℚ) := by exact_mod_cast hL
  have hL1 : (0 : ℚ) < (L : ℚ) - 1 := by linarith
  have hx0 : 0 ≤ v * ((L : ℚ) - 1) := mul_nonneg hv0 (le_of_lt hL1)
  have hxlt : v * ((L : ℚ) - 1) < (L : ℚ) - 1 := by
    have h := mul_lt_mul_of_pos_right hv1 hL1
    simpa using h
  have h0 : (0 : ℤ) ≤ jsRound (v * ((L : ℚ) - 1)) := by
    unfold jsRound
    exact Int.le_floor.mpr (by push_cast; linarith)
  have hub : jsRound (v * ((L : ℚ) - 1)) ≤ (L : ℤ) - 1 := by
    unfold jsRound
    have hlt : ⌊v * ((L : ℚ) - 1) + 1/2⌋ < (L : ℤ) :=
      Int.floor_lt.mpr (by push_cast; linarith)
    omega
  refine ⟨(jsRound (v * ((L : ℚ) - 1))).toNat, by omega, ?_⟩
  have h := Int.toNat_of_nonneg h0
  exact_mod_cast h.symm

/-- The quantization branch of the generator maps an opacity drawn from
`v ∈ [0, 1)` to `min + k * (max - min) / (L - 1)` with `k ≤ L - 1`, provided
`min < max` (at `min = max` the source divides by a zero step size and
produces `NaN`, see `quantOpacityJS`). -/
theorem opacity_quantized_core (v oMin oMax : ℚ) (L : ℕ)
    (hv0 : 0 ≤ v) (hv1 : v < 1) (hlt : oMin < oMax) (hL : 2 ≤ L) :
    ∃ k : ℕ, k ≤ L - 1 ∧
      oMin + (jsRound ((oMin + v * (oMax - oMin) - oMin)
            / ((oMax - oMin) / ((L : ℚ) - 1))) : ℚ)
          * ((oMax - oMin) / ((L : ℚ) - 1))
        = oMin + (k : ℚ) * ((oMax - oMin) / ((L : ℚ) - 1)) := by
  have hd : (0 : ℚ) < oMax - oMin := by linarith
  have hL2 : (2 : ℚ) ≤ (L : ℚ) := by exact_mod_cast hL
  have hL1 : (0 : ℚ) < (L : ℚ) - 1 := by linarith
  have h1 : oMax - oMin ≠ 0 := ne_of_gt hd
  have h2 : ((L : ℚ) - 1) ≠ 0 := ne_of_gt hL1
  have harg : (oMin + v * (oMax - oMin) - oMin)
      / ((oMax - oMin) / ((L : ℚ) - 1)) = v * ((L : ℚ) - 1) := by
    field_simp
    ring
  rw [harg]
  obtain ⟨k, hk, hkeq⟩ := quantize_bounds v L hv0 hv1 hL
  exact ⟨k, hk, by rw [hkeq]⟩

/-- Membership in the generated field is membership of some `mkCell i`,
`i < rows * cols`. -/
theorem mem_gridCells {sin : ℚ → ℚ} {seed : ℚ} {rows cols : ℕ}
    {oMin oMax : ℚ} {steps : ℕ} {dMin dMax : ℚ} {cell : GridCell} :
    cell ∈ gridCells sin seed rows cols oMin oMax steps dMin dMax ↔
    ∃ i : ℕ, i < rows * cols ∧
      cell = mkCell sin seed oMin oMax steps dMin dMax i := by
  unfold gridCells
  simp only [List.mem_map, List.mem_range]
  constructor
  · rintro ⟨i, hi, rfl⟩
    exact ⟨i, hi, rfl⟩
  · rintro ⟨i, hi, rfl⟩
    exact ⟨i, hi, rfl⟩

/-- With quantization on (`steps > 1`) the produced opacity has the snapped
form of the source's quantization branch. -/
theorem mkCell_opacity_quant (sin : ℚ → ℚ) (seed oMin oMax : ℚ) (steps : ℕ)
    (dMin dMax : ℚ) (i : ℕ) (h : 1 < steps) :
    (mkCell sin seed oMin oMax steps dMin dMax i).opacity
      = oMin + (jsRound ((oMin + rng sin seed i * (oMax - oMin) - oMin)
            / ((oMax - oMin) / ((steps : ℚ) - 1))) : ℚ)
          * ((oMax - oMin) / ((steps : ℚ) - 1)) := by
  unfold mkCell
  simp [h]

/-- Off the error path — whenever quantization is off or `oMin ≠ oMax` — the
JS-error-aware opacity agrees with the idealized `mkCell` opacity. -/
theorem quantOpacityJS_eq_mkCell (sin : ℚ → ℚ) (seed oMin oMax : ℚ)
    (steps : ℕ) (dMin dMax : ℚ) (i : ℕ) (hne : 1 < steps → oMin ≠ oMax) :
    quantOpacityJS (rng sin seed i) oMin oMax steps
      = some ((mkCell sin seed oMin oMax steps dMin dMax i).opacity) := by
  by_cases h : 1 < steps
  · have hd : oMax - oMin ≠ 0 := sub_ne_zero.mpr (Ne.symm (hne h))
    have hs : ((steps : ℚ) - 1) ≠ 0 := by
      have : (2 : ℚ) ≤ (steps : ℚ) := by exact_mod_cast h
      intro hc
      linarith
    have hstep : (oMax - oMin) / ((steps : ℚ) - 1) ≠ 0 := div_ne_zero hd hs
    rw [mkCell_opacity_quant sin seed oMin oMax steps dMin dMax i h]
    simp only [quantOpacityJS, if_pos h, if_neg hstep]
  · unfold quantOpacityJS mkCell
    simp [h]

/-- C2 counterexample: `opacityRange = [1/2, 1/2]` satisfies the claim's
hypothesis `min ≤ max`, and with `L = 3` levels the source's quantization
branch has `stepSize = 0`, computes `Math.round(0/0) = NaN`, and produces a
`NaN` opacity for cell `0` — which is not `min + k * (max - min) / (L - 1)`
for any `k`. -/
theorem gridCells_opacity_levels_cex :
    (1 : ℚ)/2 ≤ 1/2 ∧ 2 ≤ 3 ∧
    quantOpacityJS (rng (fun _ => 0) 0 0) (1/2) (1/2) 3 = none ∧
    ∀ k : ℕ, quantOpacityJS (rng (fun _ => 0) 0 0) (1/2) (1/2) 3
      ≠ some ((1 : ℚ)/2 + (k : ℚ) * ((1/2 - 1/2) / ((3 : ℚ) - 1))) := by
  have hnone : quantOpacityJS (rng (fun _ => 0) 0 0) (1/2) (1/2) 3 = none := by
    norm_num [quantOpacityJS]
  refine ⟨le_refl _, by omega, hnone, ?_⟩
  intro k
  rw [hnone]
  simp

/-- C2 (amended): with `L ≥ 2` quantization levels and `min < max`, every
generated opacity equals `min + k * (max - min) / (L - 1)` for some integer
`k ∈ [0, L - 1]`; in particular with range `[0.2, 0.9]` and `L = 3` every
opacity is one of `0.2`, `0.55`, `0.9`.  (At `min = max` the source's step
size is `0` and the produced opacities are `NaN`: see
`gridCells_opacity_levels_cex`.) -/
theorem gridCells_opacity_levels_strict (sin : ℚ → ℚ) (seed : ℚ)
    (rows cols L : ℕ) (oMin oMax dMin dMax : ℚ) (hL : 2 ≤ L)
    (hlt : oMin < oMax) :
    (∀ cell ∈ gridCells sin seed rows cols oMin oMax L dMin dMax,
      ∃ k : ℕ, k ≤ L - 1 ∧
        cell.opacity = oMin + (k : ℚ) * ((oMax - oMin) / ((L : ℚ) - 1))) ∧
    (∀ cell ∈ gridCells sin seed rows cols (1/5) (9/10) 3 dMin dMax,
      cell.opacity = 1/5 ∨ cell.opacity = 11/20 ∨ cell.opacity = 9/10) := by
  have general : ∀ (a b : ℚ) (M : ℕ), a < b → 2 ≤ M →
      ∀ cell ∈ gridCells sin seed rows cols a b M dMin dMax,
        ∃ k : ℕ, k ≤ M - 1 ∧
          cell.opacity = a + (k : ℚ) * ((b - a) / ((M : ℚ) - 1)) := by
    intro a b M hab hM cell hcell
    rw [mem_gridCells] at hcell
    obtain ⟨i, hi, rfl⟩ := hcell
    rw [mkCell_opacity_quant sin seed a b M dMin dMax i (by omega)]
    exact opacity_quantized_core (rng sin seed i) a b M
      (rng_nonneg sin seed i) (rng_lt_one sin seed i) hab hM
  refine ⟨general oMin oMax L hlt hL, ?_⟩
  intro cell hcell
  obtain ⟨k, hk, hkeq⟩ :=
    general (1/5) (9/10) 3 (by norm_num) (by norm_num) cell hcell
  interval_cases k <;> rw [hkeq] <;> norm_num

/-- Witness for C2 (amended): the first cell of a concrete `2 × 3` field
with range `[0.2, 0.9]` and three levels. -/
theorem gridCells_opacity_levels_strict_witness :
    ∃ k : ℕ, k ≤ 3 - 1 ∧
      (mkCell (fun _ => 0) 0 (1/5) (9/10) 3 (31/10) 10 0).opacity
        = 1/5 + (k : ℚ) * ((9/10 - 1/5) / ((3 : ℚ) - 1)) :=
  (gridCells_opacity_levels_strict (fun _ => 0) 0 2 3 3 (1/5) (9/10)
      (31/10) 10 (by norm_num) (by norm_num)).1
    (mkCell (fun _ => 0) 0 (1/5) (9/10) 3 (31/10) 10 0)
    (by rw [mem_gridCells]; exact ⟨0, by norm_num, rfl⟩)

/-- C8: every generated cell's delay is its third pseudo-random draw times 2
— hence in `[0, 2)` independently of the duration range — and its duration is
`min + draw * (max - min)` over the configured duration range. -/
theorem gridCells_delay_duration (sin : ℚ → ℚ) (seed : ℚ) (rows cols : ℕ)
    (oMin oMax : ℚ) (steps : ℕ) (dMin dMax : ℚ) (i : ℕ)
    (hi : i < rows * cols) :
    ∃ cell : GridCell,
      (gridCells sin seed rows cols oMin oMax steps dMin dMax).get? i
        = some cell ∧
      cell.delay = rng sin seed ((i : ℚ) + 20000) * 2 ∧
      0 ≤ cell.delay ∧ cell.delay < 2 ∧
      cell.duration = dMin + rng sin seed ((i : ℚ) + 10000) * (dMax - dMin) := by
  refine ⟨mkCell sin seed oMin oMax steps dMin dMax i, ?_, rfl, ?_, ?_, ?_⟩
  · unfold gridCells
    rw [List.get?_map, List.get?_range hi]
    rfl
  · have := rng_nonneg sin seed ((i : ℚ) + 20000)
    show 0 ≤ rng sin seed ((i : ℚ) + 20000) * 2
    linarith
  · have := rng_lt_one sin seed ((i : ℚ) + 20000)
    show rng sin seed ((i : ℚ) + 20000) * 2 < 2
    linarith
  · show rng sin seed ((i : ℚ) + 10000) * (dMax - dMin) + dMin
      = dMin + rng sin seed ((i : ℚ) + 10000) * (dMax - dMin)
    ring

/-- Witness for C8 at a concrete configuration and index `0`. -/
theorem gridCells_delay_duration_witness :
    ∃ cell : GridCell,
      (gridCells (fun _ => 0) 0 2 3 (1/5) (9/10) 3 (31/10) 10).get? 0
        = some cell ∧
      cell.delay = rng (fun _ => 0) 0 ((0 : ℚ) + 20000) * 2 ∧
      0 ≤ cell.delay ∧ cell.delay < 2 ∧
      cell.duration
        = 31/10 + rng (fun _ => 0) 0 ((0 : ℚ) + 10000) * (10 - 31/10) := by
  have h := gridCells_delay_duration (fun _ => 0) 0 2 3 (1/5) (9/10) 3
    (31/10) 10 0 (by norm_num)
  simpa using h

/-- `get?` of an `enumFrom`: the element paired with its shifted index. -/
theorem enumFrom_get? {α : Type} (l : List α) (k i : ℕ) :
    (l.enumFrom k).get? i = (l.get? i).map fun a => (k + i, a) := by
  induction l generalizing k i with
  | nil => simp [List.enumFrom]
  | cons x xs ih =>
    cases i with
    | zero => simp [List.enumFrom]
    | succ n =>
      have hkn : k + 1 + n = k + (n + 1) := by omega
      simp only [List.enumFrom, List.get?_cons_succ]
      rw [ih, hkn]

/-- `get?` of an `enum`: the element paired with its index. -/
theorem enum_get? {α : Type} (l : List α) (i : ℕ) :
    l.enum.get? i = (l.get? i).map fun a => (i, a) := by
  have h := enumFrom_get? l 0 i
  simp only [Nat.zero_add] at h
  exact h

/-- Keeping the `some` entries of a masked map counts the indices outside the
mask. -/
theorem filterMap_if_length {α β : Type} (mask : Finset ℕ) (g : ℕ × α → β)
    (l : List (ℕ × α)) :
    ((l.map fun p => if p.1 ∈ mask then none else some (g p)).filterMap
        id).length
      = l.countP fun p => decide (p.1 ∉ mask) := by
  induction l with
  | nil => rfl
  | cons x xs ih =>
    by_cases h : x.1 ∈ mask <;>
      simp [List.countP_cons, List.filterMap_cons, h] at ih ⊢ <;> omega

/-- Counting the non-members of `mask` below `n`. -/
theorem countP_range_not_mem (mask : Finset ℕ) (n : ℕ) :
    (List.range n).countP (fun i => decide (i ∉ mask))
      = n - (mask ∩ Finset.range n).card := by
  induction n with
  | zero => simp
  | succ m ih =>
    rw [List.range_succ, List.countP_append, ih]
    have hsub : (mask ∩ Finset.range m).card ≤ m := by
      calc (mask ∩ Finset.range m).card ≤ (Finset.range m).card :=
            Finset.card_le_card Finset.inter_subset_right
        _ = m := Finset.card_range m
    have hins : Finset.range (m + 1) = insert m (Finset.range m) :=
      Finset.range_succ
    by_cases h : m ∈ mask
    · have hcard : (mask ∩ Finset.range (m + 1)).card
          = (mask ∩ Finset.range m).card + 1 := by
        rw [hins, Finset.inter_insert_of_mem h,
          Finset.card_insert_of_not_mem (by
            simp [Finset.mem_inter, Finset.not_mem_range_self])]
      rw [hcard]
      have hc : List.countP (fun i => decide (i ∉ mask)) [m] = 0 := by simp [h]
      rw [hc]
      omega
    · have hcard : (mask ∩ Finset.range (m + 1)).card
          = (mask ∩ Finset.range m).card := by
        rw [hins, Finset.inter_insert_of_not_mem h]
      rw [hcard]
      have hc : List.countP (fun i => decide (i ∉ mask)) [m] = 1 := by simp [h]
      rw [hc]
      omega

/-- The rect count of the serialized body: cells minus masked indices. -/
theorem svgRectEntries_count (cells : List GridCell) (mask : Finset ℕ)
    (cols rows : ℕ) (gc : String) :
    ((svgRectEntries cells mask cols rows gc).filterMap id).length
      = cells.length - (mask ∩ Finset.range cells.length).card := by
  unfold svgRectEntries
  rw [filterMap_if_length]
  have henum : cells.enum.countP (fun p => decide (p.1 ∉ mask))
      = (List.range cells.length).countP (fun i => decide (i ∉ mask)) := by
    have h := List.countP_map (fun i => decide (i ∉ mask)) Prod.fst cells.enum
    rw [List.enum_map_fst] at h
    exact h.symm
  rw [henum, countP_range_not_mem]

/-- A `flatMap` whose pieces all have length `n` has length `l.length * n`. -/
theorem length_flatMap_const {α β : Type} (f : α → List β) (n : ℕ)
    (l : List α) (h : ∀ a ∈ l, (f a).length = n) :
    (l.flatMap f).length = l.length * n := by
  induction l with
  | nil => simp
  | cons x xs ih =>
    have hx := h x (by simp)
    have ih2 := ih (fun a ha => h a (by simp [ha]))
    simp [List.flatMap_cons, hx, ih2, Nat.succ_mul, Nat.add_comm]

theorem svgDots_length (rows cols : ℕ) (dc : String) :
    (svgDots rows cols dc).length = (rows + 1) * (cols + 1) := by
  unfold svgDots
  rw [length_flatMap_const _ (cols + 1) _
    (fun a _ => by rw [List.length_map, List.length_range])]
  rw [List.length_range]

/-- C4: for the generated `rows * cols` field and any mask set of cell
indices, the SVG serializer emits no rectangle at any masked index (the
entry there is the empty string, `none`), and the number of emitted
rectangles is `rows * cols - |mask|`. -/
theorem handleExportSVG_masked_rects (sin : ℚ → ℚ) (seed : ℚ)
    (rows cols : ℕ) (oMin oMax : ℚ) (steps : ℕ) (dMin dMax : ℚ)
    (mask : Finset ℕ) (gc : String)
    (hmask : mask ⊆ Finset.range (rows * cols)) :
    (∀ i ∈ mask,
      (svgRectEntries (gridCells sin seed rows cols oMin oMax steps dMin dMax)
        mask cols rows gc).get? i = some none) ∧
    ((svgRectEntries (gridCells sin seed rows cols oMin oMax steps dMin dMax)
        mask cols rows gc).filterMap id).length
      = rows * cols - mask.card := by
  have hlen : (gridCells sin seed rows cols oMin oMax steps dMin dMax).length
      = rows * cols := by
    unfold gridCells
    rw [List.length_map, List.length_range]
  constructor
  · intro i hi
    have hilt : i < rows * cols := Finset.mem_range.mp (hmask hi)
    have hcell :
        (gridCells sin seed rows cols oMin oMax steps dMin dMax).get? i
          = some (mkCell sin seed oMin oMax steps dMin dMax i) := by
      unfold gridCells
      rw [List.get?_map, List.get?_range hilt]
      rfl
    simp only [svgRectEntries]
    rw [List.get?_map, enum_get?, hcell]
    simp [hi]
  · rw [svgRectEntries_count, hlen,
      Finset.inter_eq_left.mpr hmask]

/-- Witness for C4: a `2 × 2` field with mask `{1}`. -/
theorem handleExportSVG_masked_rects_witness :
    (∀ i ∈ ({1} : Finset ℕ),
      (svgRectEntries (gridCells (fun _ => 0) 0 2 2 (1/5) (9/10) 3 (31/10) 10)
        ({1} : Finset ℕ) 2 2 "#faf9f7").get? i = some none) ∧
    ((svgRectEntries (gridCells (fun _ => 0) 0 2 2 (1/5) (9/10) 3 (31/10) 10)
        ({1} : Finset ℕ) 2 2 "#faf9f7").filterMap id).length
      = 2 * 2 - ({1} : Finset ℕ).card :=
  handleExportSVG_masked_rects (fun _ => 0) 0 2 2 (1/5) (9/10) 3 (31/10) 10
    {1} "#faf9f7" (by decide)

/-- C5: with the dot overlay enabled, the exported SVG contains exactly
`(rows + 1) * (cols + 1)` dot markers, for every mask set. -/
theorem handleExportSVG_dot_count (url : String) (cells : List GridCell)
    (mask : Finset ℕ) (cols rows : ℕ) (gc dc : String) (w h : ℚ) :
    (handleExportSVG (some url) cells mask cols rows true gc dc w h).map
      (fun out => out.dotEntries.length) = some ((rows + 1) * (cols + 1)) := by
  simp [handleExportSVG, svgDots_length rows cols dc]

end BloominImg
